import Mathlib

/-!
The package txsvc/observer: a shallow embedding

The development follows the two Go packages of the repository:

* `observer` (src/observer.go): the severity levels, the provider kinds, the
  process-wide registry variable, `NewConfig`, `UpdateConfig`,
  `validateProviders` and the facade functions;
* `google` (src/provider/google.go): the Stackdriver provider
  `stackdriverImpl`, the package-level `LogWithLevel` with its label pairing,
  and `toStackdriverSeverity`.

Go values are rendered as follows. An `error` is `Option GoError` (`none` is
`nil`). A run-time panic is the `Except.error` branch of `Except Panic`. A
`map[string]string` is a key-unique association list. A backend client
(`*logging.Logger`, `*errorreporting.Client`) is the list of what has been
handed to it so far, oldest first.
-/

/-- The run-time panics a Go function of this repository can raise. -/
inductive Panic where
  | indexOutOfRange
  | nilDereference
  | typeAssertion
  deriving DecidableEq, Repr

deriving instance DecidableEq for Except

/-- A Go `map[string]string`: an association list whose keys are pairwise
distinct, in the order of their first insertion. -/
abbrev Labels := List (String × String)

/-- The Go assignment `labels[k] = v`: an existing key keeps its place and gets
the new value, a new key is added. -/
def Labels.put : Labels → String → String → Labels
  | [], k, v => [(k, v)]
  | (k', v') :: rest, k, v =>
    if k' = k then (k', v) :: rest else (k', v') :: Labels.put rest k v

/-- The Go read `labels[k]` with its presence flag. -/
def Labels.get : Labels → String → Option String
  | [], _ => none
  | (k', v') :: rest, k => if k' = k then some v' else Labels.get rest k

/-- The Go index expression `keyValuePairs[i]`, which panics out of range. -/
def index (keyValuePairs : List String) (i : Nat) : Except Panic String :=
  match keyValuePairs[i]? with
  | some s => Except.ok s
  | none => Except.error Panic.indexOutOfRange

namespace provider

/-- The type `provider.ProviderType` of the imported registry package, an
integer kind, as the typed constants of observer.go use it. -/
abbrev ProviderType := Int

end provider

namespace observer

/-- The type `Severity int` of observer.go. -/
abbrev Severity := Int

/-! The constant block of observer.go: `iota` is the index of the constant
specification inside the block, and three string constants come first, so
`LevelDebug Severity = iota` is 3. -/

def DefaultLogId : String := "default"
def MetricsLogId : String := "metric"
def ValuesLogId : String := "values"

def LevelDebug : Severity := 3
def LevelInfo : Severity := 4
def LevelNotice : Severity := 5
def LevelWarn : Severity := 6
def LevelError : Severity := 7
def LevelAlert : Severity := 8

def TypeLogger : provider.ProviderType := 10
def TypeErrorReporter : provider.ProviderType := 11
def TypeMetrics : provider.ProviderType := 12

end observer

/-- A Go `error` value that is not nil. `fmt.Errorf(provider.MsgUnsupportedProviderType,
kind)` is kept as the name of its format constant applied to its argument,
since the text of the constant belongs to the imported provider package. -/
inductive GoError where
  | UnsupportedProviderType (kind : provider.ProviderType)
  | other (msg : String)
  deriving DecidableEq, Repr

/-- The `context.Context` values the callers of `Meter` pass. -/
inductive Context where
  | Background
  | TODO
  deriving DecidableEq, Repr

namespace google

/-- The severity constants of the Stackdriver logging client that google.go
names. -/
inductive NativeSeverity where
  | Debug
  | Info
  | Notice
  | Warning
  | Error
  | Alert
  deriving DecidableEq, Repr

/-- A native scale for the named constants: the numeric values of the
`LogSeverity` enumeration of the Cloud Logging API. The client library is not
part of the repository; the theorems take the scale as a parameter and this
one is an instance of it. -/
def cloudLoggingValue : NativeSeverity → Int
  | NativeSeverity.Debug => 100
  | NativeSeverity.Info => 200
  | NativeSeverity.Notice => 300
  | NativeSeverity.Warning => 400
  | NativeSeverity.Error => 500
  | NativeSeverity.Alert => 700

/-- The six levels of observer.go in the order of their declaration. -/
def levels : List observer.Severity :=
  [observer.LevelDebug, observer.LevelInfo, observer.LevelNotice, observer.LevelWarn,
   observer.LevelError, observer.LevelAlert]

/-- The `stackdriver_logging.Entry` literal that `LogWithLevel` fills in: the
payload, the severity, and the labels (`none` when the field is left unset). -/
structure Entry where
  Payload : String
  Severity : NativeSeverity
  Labels : Option Labels
  deriving DecidableEq, Repr

/-- google.go, `toStackdriverSeverity`: the switch over the six levels, with
`Info` for every other value. -/
def toStackdriverSeverity (severity : observer.Severity) : NativeSeverity :=
  if severity = observer.LevelDebug then NativeSeverity.Debug
  else if severity = observer.LevelInfo then NativeSeverity.Info
  else if severity = observer.LevelNotice then NativeSeverity.Notice
  else if severity = observer.LevelWarn then NativeSeverity.Warning
  else if severity = observer.LevelError then NativeSeverity.Error
  else if severity = observer.LevelAlert then NativeSeverity.Alert
  else NativeSeverity.Info

/-- The body of the loop `for i := 0; i < n/2; i++` of `LogWithLevel`. -/
def pairStep (keyValuePairs : List String) (labels : Labels) (i : Nat) :
    Except Panic Labels := do
  let k ← index keyValuePairs (i * 2)
  let v ← index keyValuePairs ((i * 2) + 1)
  pure (labels.put k v)

/-- google.go, `LogWithLevel`, lines 146 to 162: the value of `e.Labels` when
the entry is logged. -/
def entryLabels (keyValuePairs : List String) : Except Panic (Option Labels) :=
  let n := keyValuePairs.length
  if n > 0 then
    if n = 1 then do
      let k ← index keyValuePairs 0
      pure (some (Labels.put [] k ""))
    else do
      let labels ← (List.range (n / 2)).foldlM (pairStep keyValuePairs) []
      if n % 2 = 1 then do
        let k ← index keyValuePairs (n - 1)
        pure (some (labels.put k ""))
      else
        pure (some labels)
  else
    pure none

/-- google.go, the package-level `LogWithLevel`: builds the entry and hands it
to `logger.Log`. The logger is the list of entries it has received. -/
def LogWithLevel (logger : List Entry) (lvl : observer.Severity) (msg : String)
    (keyValuePairs : List String) : Except Panic (List Entry) := do
  let labels ← entryLabels keyValuePairs
  pure (logger ++ [{ Payload := msg, Severity := toStackdriverSeverity lvl, Labels := labels }])

/-- The pairing rule as the specification words it: the complete pairs are
inserted in order, then a trailing unpaired string as a key with the empty
value. -/
def insertPairs : List String → Labels → Labels
  | k :: v :: rest, m => insertPairs rest (m.put k v)
  | [k], m => m.put k ""
  | [], m => m

/-- The label map of the specification: no labels for the empty sequence,
otherwise the map built by `insertPairs` from the empty map. -/
def specLabels (kv : List String) : Option Labels :=
  match kv with
  | [] => none
  | _ :: _ => some (insertPairs kv [])

/-- The label map as an index formula: nothing for `n = 0`, otherwise the map
built by inserting `(kv[2i], kv[2i+1])` for `i < n/2` in order and then, for
odd `n`, `(kv[n-1], "")`. -/
def indexedLabels (kv : List String) : Option Labels :=
  if kv.length = 0 then none
  else
    some (if kv.length % 2 = 1 then
        Labels.put ((List.range (kv.length / 2)).foldl
          (fun m i => Labels.put m (kv.getD (2 * i) "") (kv.getD (2 * i + 1) "")) [])
          (kv.getD (kv.length - 1) "") ""
      else
        (List.range (kv.length / 2)).foldl
          (fun m i => Labels.put m (kv.getD (2 * i) "") (kv.getD (2 * i + 1) "")) [])

/-- The labels after the loop of `LogWithLevel`: the complete pairs inserted in
order, a trailing unpaired string ignored. -/
def completePairs : List String → Labels → Labels
  | k :: v :: rest, m => completePairs rest (m.put k v)
  | [_], m => m
  | [], m => m

/-- The struct `stackdriverImpl`. Each client pointer is rendered by what it
has received: `logger` and `metrics` by the entries passed to their `Log`,
`errorClient` by the errors passed to its `Report`. The `loggingClient` field
is only used by `Close` and is left out. -/
structure stackdriverImpl where
  logger : List Entry
  metrics : List Entry
  errorClient : List GoError
  loggingDisabled : Bool
  deriving DecidableEq, Repr

/-- The end of the process by `log.Fatal`. -/
inductive Fatal where
  | logFatal
  deriving DecidableEq, Repr

/-- google.go, `NewGoogleStackdriverProvider`, over the package variable
`stackDriverProvider`: the existing singleton is returned when there is one,
otherwise a provider with fresh clients and `loggingDisabled: false` is built
and stored. `clientErr` says whether one of the two `NewClient` calls fails,
in which case `log.Fatal` ends the process. The result is the returned
provider, which is also the new value of the package variable. -/
def NewGoogleStackdriverProvider (clientErr : Bool)
    (stackDriverProvider : Option stackdriverImpl) : Except Fatal stackdriverImpl :=
  match stackDriverProvider with
  | none =>
    if clientErr then Except.error Fatal.logFatal
    else Except.ok { metrics := [], logger := [], errorClient := [], loggingDisabled := false }
  | some np => Except.ok np

/-- google.go, `(*stackdriverImpl).ReportError`. -/
def stackdriverImpl.ReportError (np : stackdriverImpl) (e : Option GoError) :
    Option GoError × stackdriverImpl :=
  match e with
  | some err => (e, { np with errorClient := np.errorClient ++ [err] })
  | none => (e, np)

/-- google.go, `(*stackdriverImpl).Log`. -/
def stackdriverImpl.Log (np : stackdriverImpl) (msg : String) (keyValuePairs : List String) :
    Except Panic stackdriverImpl :=
  if np.loggingDisabled then
    Except.ok np
  else
    match google.LogWithLevel np.logger observer.LevelInfo msg keyValuePairs with
    | Except.ok l => Except.ok { np with logger := l }
    | Except.error p => Except.error p

/-- google.go, `(*stackdriverImpl).LogWithLevel`. -/
def stackdriverImpl.LogWithLevel (np : stackdriverImpl) (lvl : observer.Severity)
    (msg : String) (keyValuePairs : List String) : Except Panic stackdriverImpl :=
  if np.loggingDisabled then
    Except.ok np
  else
    match google.LogWithLevel np.logger lvl msg keyValuePairs with
    | Except.ok l => Except.ok { np with logger := l }
    | Except.error p => Except.error p

/-- google.go, `(*stackdriverImpl).EnableLogging`. -/
def stackdriverImpl.EnableLogging (np : stackdriverImpl) : stackdriverImpl :=
  { np with loggingDisabled := false }

/-- google.go, `(*stackdriverImpl).DisableLogging`. -/
def stackdriverImpl.DisableLogging (np : stackdriverImpl) : stackdriverImpl :=
  { np with loggingDisabled := true }

/-- google.go, `(*stackdriverImpl).Meter`. The context is not used. -/
def stackdriverImpl.Meter (np : stackdriverImpl) (_ctx : Context) (metric : String)
    (args : List String) : Except Panic stackdriverImpl :=
  match google.LogWithLevel np.metrics observer.LevelNotice metric args with
  | Except.ok l => Except.ok { np with metrics := l }
  | Except.error p => Except.error p

/-- One call of the logging interface that delivers a message. -/
inductive LogCall where
  | Log (msg : String) (keyValuePairs : List String)
  | LogWithLevel (lvl : observer.Severity) (msg : String) (keyValuePairs : List String)
  deriving DecidableEq, Repr

/-- Runs one logging call on the provider. -/
def LogCall.run (c : LogCall) (np : stackdriverImpl) : Except Panic stackdriverImpl :=
  match c with
  | LogCall.Log msg kv => np.Log msg kv
  | LogCall.LogWithLevel lvl msg kv => np.LogWithLevel lvl msg kv

/-- Runs a sequence of logging calls on the provider, first call first. -/
def runCalls : List LogCall → stackdriverImpl → Except Panic stackdriverImpl
  | [], np => Except.ok np
  | c :: cs, np =>
    match c.run np with
    | Except.ok np' => runCalls cs np'
    | Except.error p => Except.error p

/-- The entry the specification expects for one logging call: the message as
payload, `Info` for `Log` and the translated level for `LogWithLevel`, and the
labels of the pairing rule. -/
def LogCall.entry (c : LogCall) : Entry :=
  match c with
  | LogCall.Log msg kv =>
    { Payload := msg, Severity := NativeSeverity.Info, Labels := specLabels kv }
  | LogCall.LogWithLevel lvl msg kv =>
    { Payload := msg, Severity := toStackdriverSeverity lvl, Labels := specLabels kv }

end google


/-! ## The registry package and the facade of observer.go

The registry type `*provider.Provider` with `New`, `RegisterProviders` and
`Find` belongs to the imported package
`github.com/txsvc/stdlib/v2/deprecated/provider`, whose source is not part of
the repository. The specification describes it as the registry component, and
the definitions of the namespace `provider` below follow that description.
The functions of observer.go are embedded from their source on top of it. -/

namespace provider

/-- Modelled from the spec: the struct `provider.ProviderConfig`, absent from
the sources. The spec gives "a pair (kind, factory-function) describing how to
construct one provider instance"; observer.go reads the field `Type` (here
`Type_`) and the callers build a config with `WithProvider(id, kind, factory)`.
A factory is "a zero-argument function returning an opaque instance"; its
effect on the rest of the process (lazy singleton construction) is a change of
the world `W`. -/
structure ProviderConfig (W I : Type) where
  ID : String
  Type_ : ProviderType
  Impl : W → I × W

/-- Modelled from the spec: the constructor `provider.WithProvider`, absent
from the sources, as the callers in google.go and google_test.go use it. -/
def WithProvider {W I : Type} (id : String) (providerType : ProviderType)
    (impl : W → I × W) : ProviderConfig W I :=
  { ID := id, Type_ := providerType, Impl := impl }

/-- Modelled from the spec: the registry `provider.Provider`, absent from the
sources: "a single mapping from ProviderKind to ProviderInstance, keys unique
(one instance per kind)". -/
structure Provider (I : Type) where
  providers : ProviderType → Option I

/-- What the registry package touches outside the registry: the world the
factories act on, and the ids of the configs whose factory has been invoked,
oldest first. -/
structure Env (W : Type) where
  world : W
  invoked : List String

/-- Modelled from the spec: registering one config, absent from the sources:
the registry "invokes each factory ... and stores the resulting instance keyed
by kind", and an entry for a kind that is present is replaced. -/
def Provider.register {W I : Type} (p : Provider I) (pc : ProviderConfig W I) (e : Env W) :
    Provider I × Env W :=
  let r := pc.Impl e.world
  ({ providers := fun k => if k = pc.Type_ then some r.1 else p.providers k },
   { world := r.2, invoked := e.invoked ++ [pc.ID] })

/-- Modelled from the spec: registering the configs of a list in order, absent
from the sources. -/
def Provider.registerAll {W I : Type} :
    List (ProviderConfig W I) → Provider I → Env W → Provider I × Env W
  | [], p, e => (p, e)
  | pc :: rest, p, e => Provider.registerAll rest (p.register pc e).1 (p.register pc e).2

/-- Modelled from the spec: `provider.New`, absent from the sources: the
success part of Configure, "invokes each factory ... and stores the resulting
instance keyed by kind", from the empty registry. The spec names no failure of
this step, so the error result is always nil. -/
def New {W I : Type} (opts : List (ProviderConfig W I)) (e : Env W) :
    (Option (Provider I) × Option GoError) × Env W :=
  let r := Provider.registerAll opts { providers := fun _ => none } e
  ((some r.1, none), r.2)

/-- What the two methods of the registry do when their receiver is the nil
pointer. Their source is absent and the specification gives no behaviour for
an unset registry, so this is a parameter of the embedding: nothing is assumed
of it, and a statement about a process without a registry can only say what
the code of the repository does with the result. -/
structure NilReceiver (W I : Type) where
  Find : ProviderType → Except Panic (Option I × Bool)
  RegisterProviders : Bool → List (ProviderConfig W I) → Env W →
    Except Panic (Option GoError × Env W)

/-- Modelled from the spec: `(*Provider).RegisterProviders`, absent from the
sources, as `UpdateConfig` calls it: Update "merges into the existing
registry: replaces entries for kinds present in the update, leaves other
existing entries untouched". The spec gives the boolean argument no meaning
and the merge does not depend on it. On a nil receiver the result is the
parameter `nr`. The result is the error and the registry the receiver points
to after the call (`none` for the nil receiver). -/
def Provider.RegisterProviders {W I : Type} (nr : NilReceiver W I) (p : Option (Provider I))
    (flag : Bool) (opts : List (ProviderConfig W I)) (e : Env W) :
    Except Panic ((Option GoError × Option (Provider I)) × Env W) :=
  match p with
  | none =>
    match nr.RegisterProviders flag opts e with
    | Except.error q => Except.error q
    | Except.ok (err, e') => Except.ok ((err, none), e')
  | some r =>
    Except.ok ((none, some (Provider.registerAll opts r e).1),
      (Provider.registerAll opts r e).2)

/-- Modelled from the spec: `(*Provider).Find`, absent from the sources: "a
pure lookup; never constructs, never mutates; found=false when the kind was
never registered". The result is the pair `(instance, found)` of the Go
method, the instance nil when nothing is found. On a nil receiver the result
is the parameter `nr`. -/
def Provider.Find {W I : Type} (nr : NilReceiver W I) (p : Option (Provider I))
    (providerType : ProviderType) : Except Panic (Option I × Bool) :=
  match p with
  | none => nr.Find providerType
  | some r =>
    match r.providers providerType with
    | some inst => Except.ok (some inst, true)
    | none => Except.ok (none, false)

end provider

namespace observer

/-- observer.go, the interface `ErrorReportingProvider`, over a world `W` that
holds the state of the provider and of its backend. -/
structure ErrorReportingProvider (W : Type) where
  ReportError : Option GoError → W → Except Panic (Option GoError × W)

/-- observer.go, the interface `MetricsProvider`. -/
structure MetricsProvider (W : Type) where
  Meter : Context → String → List String → W → Except Panic W

/-- observer.go, the interface `LoggingProvider`. -/
structure LoggingProvider (W : Type) where
  Log : String → List String → W → Except Panic W
  LogWithLevel : Severity → String → List String → W → Except Panic W
  EnableLogging : W → Except Panic W
  DisableLogging : W → Except Panic W

/-- A value of the Go type `interface{}` as the registry stores it: for each of
the three interfaces of observer.go, the method set the dynamic type offers,
or `none` when the dynamic type does not implement the interface. -/
structure GoInterface (W : Type) where
  asLoggingProvider : Option (LoggingProvider W)
  asErrorReportingProvider : Option (ErrorReportingProvider W)
  asMetricsProvider : Option (MetricsProvider W)

/-- The type assertion `imp.(LoggingProvider)`, which panics on a nil interface
and on a dynamic type without the methods. -/
def assertLoggingProvider {W : Type} (imp : Option (GoInterface W)) :
    Except Panic (LoggingProvider W) :=
  match imp with
  | some i =>
    match i.asLoggingProvider with
    | some lp => Except.ok lp
    | none => Except.error Panic.typeAssertion
  | none => Except.error Panic.typeAssertion

/-- The type assertion `imp.(ErrorReportingProvider)`. -/
def assertErrorReportingProvider {W : Type} (imp : Option (GoInterface W)) :
    Except Panic (ErrorReportingProvider W) :=
  match imp with
  | some i =>
    match i.asErrorReportingProvider with
    | some ep => Except.ok ep
    | none => Except.error Panic.typeAssertion
  | none => Except.error Panic.typeAssertion

/-- The type assertion `imp.(MetricsProvider)`. -/
def assertMetricsProvider {W : Type} (imp : Option (GoInterface W)) :
    Except Panic (MetricsProvider W) :=
  match imp with
  | some i =>
    match i.asMetricsProvider with
    | some mp => Except.ok mp
    | none => Except.error Panic.typeAssertion
  | none => Except.error Panic.typeAssertion

/-- The state of the process as observer.go sees it: the package variable
`observerProvider` (`none` is the nil pointer, `some r` a pointer to the
registry `r`) and what the registry package touches. -/
structure Process (W : Type) where
  observerProvider : Option (provider.Provider (GoInterface W))
  env : provider.Env W

/-- The initial state of a process: `observerProvider` is nil and no factory
has been invoked. -/
def Process.initial {W : Type} (w : W) : Process W :=
  { observerProvider := none, env := { world := w, invoked := [] } }

/-- observer.go, `Instance`. -/
def Instance {W : Type} (s : Process W) : Option (provider.Provider (GoInterface W)) :=
  s.observerProvider

/-- A kind is recognized when it is one of `TypeLogger`, `TypeErrorReporter`
and `TypeMetrics`. -/
def recognized (k : provider.ProviderType) : Prop :=
  k = TypeLogger ∨ k = TypeErrorReporter ∨ k = TypeMetrics

instance recognizedDecidable (k : provider.ProviderType) : Decidable (recognized k) := by
  unfold recognized
  infer_instance

/-- observer.go, `validateProviders`: the first config whose kind is none of
the three, or nil. -/
def validateProviders {W I : Type} :
    List (provider.ProviderConfig W I) → Option (provider.ProviderConfig W I)
  | [] => none
  | pc :: rest =>
    if pc.Type_ ≠ TypeLogger ∧ pc.Type_ ≠ TypeErrorReporter ∧ pc.Type_ ≠ TypeMetrics then
      some pc
    else
      validateProviders rest

/-- observer.go, `NewConfig`: the returned pair `(*provider.Provider, error)`
and the state after the call. A returned pointer is rendered by the registry
it points to. -/
def NewConfig {W : Type} (opts : List (provider.ProviderConfig W (GoInterface W)))
    (s : Process W) :
    (Option (provider.Provider (GoInterface W)) × Option GoError) × Process W :=
  match validateProviders opts with
  | some pc => ((none, some (GoError.UnsupportedProviderType pc.Type_)), s)
  | none =>
    match provider.New opts s.env with
    | ((_, some err), env') => ((none, some err), { s with env := env' })
    | ((o, none), env') => ((o, none), { observerProvider := o, env := env' })

/-- observer.go, `UpdateConfig`: the returned pair and the state after the
call. `RegisterProviders` changes the registry `observerProvider` points to;
the returned pointer is `observerProvider`, rendered by that registry. -/
def UpdateConfig {W : Type} (nr : provider.NilReceiver W (GoInterface W))
    (opts : List (provider.ProviderConfig W (GoInterface W))) (s : Process W) :
    Except Panic ((Option (provider.Provider (GoInterface W)) × Option GoError) × Process W) :=
  match validateProviders opts with
  | some pc => Except.ok ((none, some (GoError.UnsupportedProviderType pc.Type_)), s)
  | none =>
    match provider.Provider.RegisterProviders nr (Instance s) true opts s.env with
    | Except.error p => Except.error p
    | Except.ok ((err, r), env') =>
      Except.ok ((r, err), { observerProvider := r, env := env' })

/-- The state after a provider method has run on the world. -/
def Process.withWorld {W : Type} (s : Process W) (w : W) : Process W :=
  { s with env := { s.env with world := w } }

/-- observer.go, `Log`. -/
def Log {W : Type} (nr : provider.NilReceiver W (GoInterface W))
    (msg : String) (keyValuePairs : List String) (s : Process W) :
    Except Panic (Process W) :=
  match provider.Provider.Find nr (Instance s) TypeLogger with
  | Except.error p => Except.error p
  | Except.ok (imp, found) =>
    if !found then Except.ok s
    else
      match assertLoggingProvider imp with
      | Except.error p => Except.error p
      | Except.ok lp => (lp.Log msg keyValuePairs s.env.world).map s.withWorld

/-- observer.go, `LogWithLevel`. -/
def LogWithLevel {W : Type} (nr : provider.NilReceiver W (GoInterface W))
    (lvl : Severity) (msg : String) (keyValuePairs : List String)
    (s : Process W) : Except Panic (Process W) :=
  match provider.Provider.Find nr (Instance s) TypeLogger with
  | Except.error p => Except.error p
  | Except.ok (imp, found) =>
    if !found then Except.ok s
    else
      match assertLoggingProvider imp with
      | Except.error p => Except.error p
      | Except.ok lp => (lp.LogWithLevel lvl msg keyValuePairs s.env.world).map s.withWorld

/-- observer.go, `EnableLogging`. -/
def EnableLogging {W : Type} (nr : provider.NilReceiver W (GoInterface W))
    (s : Process W) : Except Panic (Process W) :=
  match provider.Provider.Find nr (Instance s) TypeLogger with
  | Except.error p => Except.error p
  | Except.ok (imp, found) =>
    if !found then Except.ok s
    else
      match assertLoggingProvider imp with
      | Except.error p => Except.error p
      | Except.ok lp => (lp.EnableLogging s.env.world).map s.withWorld

/-- observer.go, `DisableLogging`. -/
def DisableLogging {W : Type} (nr : provider.NilReceiver W (GoInterface W))
    (s : Process W) : Except Panic (Process W) :=
  match provider.Provider.Find nr (Instance s) TypeLogger with
  | Except.error p => Except.error p
  | Except.ok (imp, found) =>
    if !found then Except.ok s
    else
      match assertLoggingProvider imp with
      | Except.error p => Except.error p
      | Except.ok lp => (lp.DisableLogging s.env.world).map s.withWorld

/-- observer.go, `Meter`. -/
def Meter {W : Type} (nr : provider.NilReceiver W (GoInterface W))
    (ctx : Context) (metric : String) (vals : List String) (s : Process W) :
    Except Panic (Process W) :=
  match provider.Provider.Find nr (Instance s) TypeMetrics with
  | Except.error p => Except.error p
  | Except.ok (imp, found) =>
    if !found then Except.ok s
    else
      match assertMetricsProvider imp with
      | Except.error p => Except.error p
      | Except.ok mp => (mp.Meter ctx metric vals s.env.world).map s.withWorld

/-- observer.go, `ReportError`: the returned error and the state after. -/
def ReportError {W : Type} (nr : provider.NilReceiver W (GoInterface W))
    (e : Option GoError) (s : Process W) :
    Except Panic (Option GoError × Process W) :=
  match provider.Provider.Find nr (Instance s) TypeErrorReporter with
  | Except.error p => Except.error p
  | Except.ok (imp, found) =>
    if !found then Except.ok (none, s)
    else
      match assertErrorReportingProvider imp with
      | Except.error p => Except.error p
      | Except.ok ep =>
        (ep.ReportError e s.env.world).map (fun r => (r.1, s.withWorld r.2))

end observer

namespace google

/-- The world of a process that uses the Stackdriver provider: the package
variable `stackDriverProvider` of google.go. -/
abbrev World := Option stackdriverImpl

/-- Runs a method of `*stackdriverImpl` on the singleton; a nil pointer is
dereferenced by every method. -/
def onSingleton (f : stackdriverImpl → Except Panic stackdriverImpl) (w : World) :
    Except Panic World :=
  match w with
  | some np => (f np).map some
  | none => Except.error Panic.nilDereference

/-- The method `ReportError` of `*stackdriverImpl` on the singleton. On a nil
pointer the method reads `np.errorClient` only for a non-nil error. -/
def stackdriverReporter : observer.ErrorReportingProvider World :=
  { ReportError := fun e w =>
      match w with
      | some np => Except.ok ((np.ReportError e).1, some (np.ReportError e).2)
      | none =>
        match e with
        | some _ => Except.error Panic.nilDereference
        | none => Except.ok (none, none) }

/-- The pointer `*stackdriverImpl` as a value of type `interface{}`: the
interface guards of google.go state that it implements the three interfaces
of observer.go. -/
def stackdriverInterface : observer.GoInterface World :=
  { asLoggingProvider := some
      { Log := fun msg kv => onSingleton (fun np => np.Log msg kv)
        LogWithLevel := fun lvl msg kv => onSingleton (fun np => np.LogWithLevel lvl msg kv)
        EnableLogging := onSingleton (fun np => Except.ok np.EnableLogging)
        DisableLogging := onSingleton (fun np => Except.ok np.DisableLogging) }
    asErrorReportingProvider := some stackdriverReporter
    asMetricsProvider := some
      { Meter := fun ctx metric args => onSingleton (fun np => np.Meter ctx metric args) } }

/-- The factory `NewGoogleStackdriverProvider` as the registry invokes it, in
a process whose clients can be created: the returned pointer and the package
variable after the call. -/
def stackdriverFactory (w : World) : observer.GoInterface World × World :=
  match NewGoogleStackdriverProvider false w with
  | Except.ok np => (stackdriverInterface, some np)
  | Except.error _ => (stackdriverInterface, w)

/-- The logger config of the comment at the head of google.go. -/
def loggerConfig : provider.ProviderConfig World (observer.GoInterface World) :=
  provider.WithProvider "google.cloud.logging" observer.TypeLogger stackdriverFactory

/-- The error reporter config of the comment at the head of google.go. -/
def errorConfig : provider.ProviderConfig World (observer.GoInterface World) :=
  provider.WithProvider "google.cloud.error" observer.TypeErrorReporter stackdriverFactory

/-- The metrics config of the comment at the head of google.go. -/
def metricsConfig : provider.ProviderConfig World (observer.GoInterface World) :=
  provider.WithProvider "google.cloud.metrics" observer.TypeMetrics stackdriverFactory

/-- A config of the kind 99, which observer.go does not know. -/
def unknownConfig : provider.ProviderConfig World (observer.GoInterface World) :=
  provider.WithProvider "unknown" 99 stackdriverFactory

/-- A process at its start: no registry, no Stackdriver singleton. -/
def start : observer.Process World := observer.Process.initial none

/-- The process of `TestMetricsImpl` after `NewConfig(metricsConfig)`. -/
def metricsOnly : observer.Process World := (observer.NewConfig [metricsConfig] start).2

/-- The registry of `metricsOnly`. -/
def metricsOnlyRegistry : provider.Provider (observer.GoInterface World) :=
  (provider.Provider.registerAll [metricsConfig] { providers := fun _ => none } start.env).1

/-- The process of `TestLoggingImpl` after `NewConfig(loggingImpl)`. -/
def loggerOnly : observer.Process World := (observer.NewConfig [loggerConfig] start).2

/-- One value of the nil-receiver parameter, for statements at a concrete
process: both methods dereference their receiver. The processes it is used
with have a registry, so it is never consulted. -/
def nilDereferences : provider.NilReceiver World (observer.GoInterface World) :=
  { Find := fun _ => Except.error Panic.nilDereference
    RegisterProviders := fun _ _ _ => Except.error Panic.nilDereference }

/-- Runs one logging call through the facade of observer.go. -/
def LogCall.facade (nr : provider.NilReceiver World (observer.GoInterface World))
    (c : LogCall) (s : observer.Process World) : Except Panic (observer.Process World) :=
  match c with
  | LogCall.Log msg kv => observer.Log nr msg kv s
  | LogCall.LogWithLevel lvl msg kv => observer.LogWithLevel nr lvl msg kv s

/-- Runs a sequence of logging calls through the facade, first call first. -/
def facadeCalls (nr : provider.NilReceiver World (observer.GoInterface World)) :
    List LogCall → observer.Process World → Except Panic (observer.Process World)
  | [], s => Except.ok s
  | c :: cs, s =>
    match c.facade nr s with
    | Except.ok s' => facadeCalls nr cs s'
    | Except.error p => Except.error p

/-- The process of `TestErrorReportingImpl` after `NewConfig(errorConfig)`. -/
def errorOnly : observer.Process World := (observer.NewConfig [errorConfig] start).2

end google

/-! ## The label pairing of `LogWithLevel` -/

namespace google

theorem index_cons_succ (a : String) (l : List String) (i : Nat) :
    index (a :: l) (i + 1) = index l i := by
  simp [index]

theorem pairStep_zero (k v : String) (rest : List String) (m : Labels) :
    pairStep (k :: v :: rest) m 0 = Except.ok (m.put k v) := by
  simp [pairStep, index]
  rfl

theorem pairStep_shift (k v : String) (rest : List String) (m : Labels) (i : Nat) :
    pairStep (k :: v :: rest) m (i + 1) = pairStep rest m i := by
  unfold pairStep
  have h1 : (i + 1) * 2 = (i * 2) + 1 + 1 := by ring
  rw [h1]
  simp only [index_cons_succ]

/-- The loop over `i < n/2` never leaves the sequence and inserts the complete
pairs in order. -/
theorem loop_eq_completePairs : ∀ (kv : List String) (m : Labels),
    (List.range (kv.length / 2)).foldlM (pairStep kv) m = Except.ok (completePairs kv m)
  | [], m => by simp [completePairs]; rfl
  | [_], m => by simp [completePairs]; rfl
  | k :: v :: rest, m => by
    have hlen : (k :: v :: rest).length / 2 = rest.length / 2 + 1 := by
      simp only [List.length_cons]; omega
    rw [hlen, List.range_succ_eq_map, List.foldlM_cons, pairStep_zero]
    simp only [completePairs]
    rw [← loop_eq_completePairs rest (m.put k v)]
    show List.foldlM (pairStep (k :: v :: rest)) (m.put k v)
        (List.map Nat.succ (List.range (rest.length / 2))) = _
    rw [List.foldlM_map]
    simp only [Nat.succ_eq_add_one, pairStep_shift]

theorem insertPairs_even : ∀ (kv : List String) (m : Labels),
    kv.length % 2 = 0 → insertPairs kv m = completePairs kv m
  | [], m, _ => by simp [insertPairs, completePairs]
  | [_], m, h => by simp at h
  | k :: v :: rest, m, h => by
    simp only [insertPairs, completePairs]
    apply insertPairs_even
    simp only [List.length_cons] at h; omega

theorem insertPairs_odd : ∀ (kv : List String) (m : Labels),
    kv.length % 2 = 1 →
      ∃ k, index kv (kv.length - 1) = Except.ok k ∧
        insertPairs kv m = (completePairs kv m).put k ""
  | [], m, h => by simp at h
  | [a], m, _ => ⟨a, by simp [index], by simp [insertPairs, completePairs]⟩
  | k :: v :: rest, m, h => by
    have h' : rest.length % 2 = 1 := by simp only [List.length_cons] at h; omega
    obtain ⟨x, hx, hins⟩ := insertPairs_odd rest (m.put k v) h'
    refine ⟨x, ?_, ?_⟩
    · have hpos : 0 < rest.length := by omega
      have : (k :: v :: rest).length - 1 = (rest.length - 1) + 1 + 1 := by
        simp only [List.length_cons]; omega
      rw [this, index_cons_succ, index_cons_succ]
      exact hx
    · simp only [insertPairs, completePairs]
      exact hins

theorem entryLabels_eq_specLabels (kv : List String) :
    entryLabels kv = Except.ok (specLabels kv) := by
  match kv with
  | [] => rfl
  | [a] => rfl
  | a :: b :: rest =>
    have hne : ¬ (a :: b :: rest).length = 1 := by simp
    have hpos : (a :: b :: rest).length > 0 := by simp
    unfold entryLabels
    simp only [hpos, hne, if_true, if_false, loop_eq_completePairs]
    by_cases hodd : (a :: b :: rest).length % 2 = 1
    · obtain ⟨x, hx, hins⟩ := insertPairs_odd (a :: b :: rest) [] hodd
      simp only [hodd, if_true, hx, specLabels, hins]
      rfl
    · have heven : (a :: b :: rest).length % 2 = 0 := by omega
      simp only [hodd, if_false, specLabels, insertPairs_even _ _ heven]
      rfl

end google

namespace google

theorem index_getD (kv : List String) (i : Nat) (k : String)
    (h : index kv i = Except.ok k) : kv.getD i "" = k := by
  unfold index at h
  rw [List.getD_eq_getElem?_getD]
  cases hx : kv[i]? with
  | none => rw [hx] at h; cases h
  | some x => rw [hx] at h; simp only [Except.ok.injEq] at h; simp [h]

theorem foldl_indexed_eq_completePairs : ∀ (kv : List String) (m : Labels),
    (List.range (kv.length / 2)).foldl
      (fun m i => Labels.put m (kv.getD (2 * i) "") (kv.getD (2 * i + 1) "")) m
      = completePairs kv m
  | [], m => by simp [completePairs]
  | [_], m => by simp [completePairs]
  | k :: v :: rest, m => by
    have hlen : (k :: v :: rest).length / 2 = rest.length / 2 + 1 := by
      simp only [List.length_cons]; omega
    rw [hlen, List.range_succ_eq_map, List.foldl_cons, List.foldl_map]
    simp only [completePairs]
    rw [← foldl_indexed_eq_completePairs rest (m.put k v)]
    have hshift : ∀ i : Nat, 2 * Nat.succ i = 2 * i + 1 + 1 := by intro i; omega
    simp only [hshift, List.getD_cons_succ, Nat.mul_zero, List.getD_cons_zero]

theorem specLabels_eq_indexedLabels (kv : List String) : specLabels kv = indexedLabels kv := by
  match kv with
  | [] => rfl
  | a :: rest =>
    have hne : ¬ (a :: rest).length = 0 := by simp
    unfold indexedLabels
    simp only [hne, if_false, foldl_indexed_eq_completePairs, specLabels]
    by_cases hodd : (a :: rest).length % 2 = 1
    · obtain ⟨x, hx, hins⟩ := insertPairs_odd (a :: rest) [] hodd
      simp only [hodd, if_true, index_getD _ _ _ hx, hins]
    · have heven : (a :: rest).length % 2 = 0 := by omega
      simp only [hodd, if_false, insertPairs_even _ _ heven]

theorem LogWithLevel_eq (logger : List Entry) (lvl : observer.Severity) (msg : String)
    (kv : List String) :
    LogWithLevel logger lvl msg kv = Except.ok (logger ++
      [{ Payload := msg, Severity := toStackdriverSeverity lvl, Labels := specLabels kv }]) := by
  unfold LogWithLevel
  rw [entryLabels_eq_specLabels]
  rfl

end google

/-! ## The Stackdriver provider -/

namespace google

theorem Labels_get_put_self : ∀ (m : Labels) (k v : String), (Labels.put m k v).get k = some v
  | [], k, v => by simp [Labels.put, Labels.get]
  | (k', v') :: rest, k, v => by
    by_cases h : k' = k
    · simp [Labels.put, Labels.get, h]
    · simp [Labels.put, Labels.get, h, Labels_get_put_self rest k v]

theorem Labels_get_put_other : ∀ (m : Labels) (k v j : String), j ≠ k →
    (Labels.put m k v).get j = m.get j
  | [], k, v, j, hj => by simp [Labels.put, Labels.get, Ne.symm hj]
  | (k', v') :: rest, k, v, j, hj => by
    by_cases h : k' = k
    · subst h; simp [Labels.put, Labels.get, Ne.symm hj]
    · by_cases h2 : k' = j
      · subst h2; simp [Labels.put, Labels.get, hj]
      · simp [Labels.put, Labels.get, h, h2, Labels_get_put_other rest k v j hj]

theorem Log_enabled (np : stackdriverImpl) (msg : String) (kv : List String)
    (h : np.loggingDisabled = false) :
    np.Log msg kv = Except.ok { np with logger := np.logger ++
      [{ Payload := msg, Severity := NativeSeverity.Info, Labels := specLabels kv }] } := by
  unfold stackdriverImpl.Log
  rw [LogWithLevel_eq]
  simp [h]
  rfl

theorem LogWithLevel_enabled (np : stackdriverImpl) (lvl : observer.Severity) (msg : String)
    (kv : List String) (h : np.loggingDisabled = false) :
    np.LogWithLevel lvl msg kv = Except.ok { np with logger := np.logger ++
      [{ Payload := msg, Severity := toStackdriverSeverity lvl, Labels := specLabels kv }] } := by
  unfold stackdriverImpl.LogWithLevel
  rw [LogWithLevel_eq]
  simp [h]

theorem Meter_eq (np : stackdriverImpl) (ctx : Context) (metric : String) (args : List String) :
    np.Meter ctx metric args = Except.ok { np with metrics := np.metrics ++
      [{ Payload := metric, Severity := NativeSeverity.Notice, Labels := specLabels args }] } := by
  unfold stackdriverImpl.Meter
  rw [LogWithLevel_eq]
  rfl

theorem run_disabled (c : LogCall) (np : stackdriverImpl) (h : np.loggingDisabled = true) :
    c.run np = Except.ok np := by
  cases c <;> simp [LogCall.run, stackdriverImpl.Log, stackdriverImpl.LogWithLevel, h]

theorem run_enabled (c : LogCall) (np : stackdriverImpl) (h : np.loggingDisabled = false) :
    c.run np = Except.ok { np with logger := np.logger ++ [c.entry] } := by
  cases c with
  | Log msg kv => simp only [LogCall.run, LogCall.entry]; exact Log_enabled np msg kv h
  | LogWithLevel lvl msg kv =>
    simp only [LogCall.run, LogCall.entry]; exact LogWithLevel_enabled np lvl msg kv h

theorem runCalls_disabled : ∀ (cs : List LogCall) (np : stackdriverImpl),
    np.loggingDisabled = true → runCalls cs np = Except.ok np
  | [], np, _ => rfl
  | c :: cs, np, h => by
    simp only [runCalls, run_disabled c np h]
    exact runCalls_disabled cs np h

theorem runCalls_enabled : ∀ (cs : List LogCall) (np : stackdriverImpl),
    np.loggingDisabled = false →
      runCalls cs np = Except.ok { np with logger := np.logger ++ cs.map LogCall.entry }
  | [], np, _ => by simp [runCalls]
  | c :: cs, np, h => by
    simp only [runCalls, run_enabled c np h]
    rw [runCalls_enabled cs { np with logger := np.logger ++ [c.entry] } h]
    simp

end google

/-! ## The claims about the Stackdriver provider -/

namespace google

/-- C1: for every sequence `kv` passed to the package-level `LogWithLevel`, and
so to `Log`, `LogWithLevel` and `Meter` of the Stackdriver provider, the index
accesses never panic and the emitted entry carries the labels of the pairing
rule: none for the empty sequence, otherwise the map built by inserting
`(kv[2i], kv[2i+1])` for `i < n/2` in order and then, for odd `n`,
`(kv[n-1], "")`, a later insertion overriding an earlier one with the same
key. The four sequences named by the specification give the maps it names. -/
theorem LogWithLevel_label_pairing (logger : List Entry) (lvl : observer.Severity)
    (msg : String) (kv : List String) (np : stackdriverImpl) (ctx : Context) :
    entryLabels kv = Except.ok (indexedLabels kv)
    ∧ indexedLabels kv = specLabels kv
    ∧ LogWithLevel logger lvl msg kv = Except.ok (logger ++
        [{ Payload := msg, Severity := toStackdriverSeverity lvl, Labels := indexedLabels kv }])
    ∧ np.EnableLogging.Log msg kv = Except.ok { np.EnableLogging with logger := np.logger ++
        [{ Payload := msg, Severity := NativeSeverity.Info, Labels := indexedLabels kv }] }
    ∧ np.EnableLogging.LogWithLevel lvl msg kv = Except.ok { np.EnableLogging with
        logger := np.logger ++
        [{ Payload := msg, Severity := toStackdriverSeverity lvl, Labels := indexedLabels kv }] }
    ∧ np.Meter ctx msg kv = Except.ok { np with metrics := np.metrics ++
        [{ Payload := msg, Severity := NativeSeverity.Notice, Labels := indexedLabels kv }] }
    ∧ (∀ (m : Labels) (k v : String), (Labels.put m k v).get k = some v)
    ∧ entryLabels [] = Except.ok none
    ∧ entryLabels ["a", "1", "b", "2"] = Except.ok (some [("a", "1"), ("b", "2")])
    ∧ entryLabels ["a", "1", "b"] = Except.ok (some [("a", "1"), ("b", "")])
    ∧ entryLabels ["a"] = Except.ok (some [("a", "")])
    ∧ entryLabels ["k1", "v1", "k2", "v2"] = Except.ok (some [("k1", "v1"), ("k2", "v2")]) := by
  refine ⟨?_, ?_, ?_, ?_, ?_, ?_, Labels_get_put_self, by decide, by decide, by decide,
    by decide, by decide⟩
  · rw [entryLabels_eq_specLabels, specLabels_eq_indexedLabels]
  · exact (specLabels_eq_indexedLabels kv).symm
  · rw [LogWithLevel_eq, specLabels_eq_indexedLabels]
  · rw [Log_enabled _ _ _ rfl, specLabels_eq_indexedLabels]; rfl
  · rw [LogWithLevel_enabled _ _ _ _ rfl, specLabels_eq_indexedLabels]; rfl
  · rw [Meter_eq, specLabels_eq_indexedLabels]

/-- C9: `toStackdriverSeverity` maps each of the six levels to the native
severity of the same name, the six levels are strictly increasing as integers
in the order of their declaration, and on a native scale that orders the six
named severities as Debug, Info, Notice, Warning, Error, Alert the mapping is
strictly order-preserving on the six levels. -/
theorem toStackdriverSeverity_monotone (scale : NativeSeverity → Int)
    (hscale : scale NativeSeverity.Debug < scale NativeSeverity.Info
      ∧ scale NativeSeverity.Info < scale NativeSeverity.Notice
      ∧ scale NativeSeverity.Notice < scale NativeSeverity.Warning
      ∧ scale NativeSeverity.Warning < scale NativeSeverity.Error
      ∧ scale NativeSeverity.Error < scale NativeSeverity.Alert) :
    (toStackdriverSeverity observer.LevelDebug = NativeSeverity.Debug
      ∧ toStackdriverSeverity observer.LevelInfo = NativeSeverity.Info
      ∧ toStackdriverSeverity observer.LevelNotice = NativeSeverity.Notice
      ∧ toStackdriverSeverity observer.LevelWarn = NativeSeverity.Warning
      ∧ toStackdriverSeverity observer.LevelError = NativeSeverity.Error
      ∧ toStackdriverSeverity observer.LevelAlert = NativeSeverity.Alert)
    ∧ (observer.LevelDebug < observer.LevelInfo ∧ observer.LevelInfo < observer.LevelNotice
      ∧ observer.LevelNotice < observer.LevelWarn ∧ observer.LevelWarn < observer.LevelError
      ∧ observer.LevelError < observer.LevelAlert)
    ∧ ∀ a ∈ levels, ∀ b ∈ levels, a < b →
        scale (toStackdriverSeverity a) < scale (toStackdriverSeverity b) := by
  obtain ⟨h1, h2, h3, h4, h5⟩ := hscale
  refine ⟨by decide, by decide, ?_⟩
  intro a ha b hb hab
  simp only [levels, List.mem_cons, List.mem_singleton, List.not_mem_nil, or_false] at ha hb
  rcases ha with rfl | rfl | rfl | rfl | rfl | rfl <;>
    rcases hb with rfl | rfl | rfl | rfl | rfl | rfl <;>
    first
      | (exact absurd hab (by decide))
      | (simp only [toStackdriverSeverity, observer.LevelDebug, observer.LevelInfo,
          observer.LevelNotice, observer.LevelWarn, observer.LevelError, observer.LevelAlert]
         norm_num
         omega)

/-- Witness of C9 on the scale of the Cloud Logging API. -/
theorem toStackdriverSeverity_monotone_witness :
    (cloudLoggingValue NativeSeverity.Debug < cloudLoggingValue NativeSeverity.Info
      ∧ cloudLoggingValue NativeSeverity.Info < cloudLoggingValue NativeSeverity.Notice
      ∧ cloudLoggingValue NativeSeverity.Notice < cloudLoggingValue NativeSeverity.Warning
      ∧ cloudLoggingValue NativeSeverity.Warning < cloudLoggingValue NativeSeverity.Error
      ∧ cloudLoggingValue NativeSeverity.Error < cloudLoggingValue NativeSeverity.Alert)
    ∧ cloudLoggingValue (toStackdriverSeverity observer.LevelWarn)
        < cloudLoggingValue (toStackdriverSeverity observer.LevelAlert) :=
  ⟨by decide,
   (toStackdriverSeverity_monotone cloudLoggingValue (by decide)).2.2
     observer.LevelWarn (by decide) observer.LevelAlert (by decide) (by decide)⟩

/-- C10: the flag `loggingDisabled` does not affect metrics. For every state of
the provider, `Meter` returns and appends exactly one entry to the metrics
logger, with the metric name as payload, severity `Notice` and the labels of
the pairing rule; the logger, the error client and the flag stay as they are,
and the call does the same after `DisableLogging` and for either value of the
flag. -/
theorem Meter_ignores_loggingDisabled (np : stackdriverImpl) (ctx : Context) (metric : String)
    (vals : List String) (b : Bool) :
    np.Meter ctx metric vals = Except.ok { np with metrics := np.metrics ++
        [{ Payload := metric, Severity := NativeSeverity.Notice, Labels := indexedLabels vals }] }
    ∧ np.DisableLogging.Meter ctx metric vals = Except.ok { np.DisableLogging with
        metrics := np.metrics ++
        [{ Payload := metric, Severity := NativeSeverity.Notice, Labels := indexedLabels vals }] }
    ∧ stackdriverImpl.Meter { np with loggingDisabled := b } ctx metric vals
        = (np.Meter ctx metric vals).map (fun r => { r with loggingDisabled := b })
    ∧ toStackdriverSeverity observer.LevelNotice = NativeSeverity.Notice := by
  refine ⟨?_, ?_, ?_, by decide⟩
  · rw [Meter_eq, specLabels_eq_indexedLabels]
  · rw [Meter_eq, specLabels_eq_indexedLabels]; rfl
  · rw [Meter_eq, Meter_eq]; rfl

end google

/-! ## The registry -/

namespace provider

variable {W I : Type}

theorem registerAll_append : ∀ (a b : List (ProviderConfig W I)) (p : Provider I) (e : Env W),
    Provider.registerAll (a ++ b) p e
      = Provider.registerAll b (Provider.registerAll a p e).1 (Provider.registerAll a p e).2
  | [], _, _, _ => rfl
  | pc :: a, b, p, e => by
    simp only [List.cons_append, Provider.registerAll]
    exact registerAll_append a b _ _

theorem registerAll_untouched (k : ProviderType) :
    ∀ (l : List (ProviderConfig W I)) (p : Provider I) (e : Env W),
      (∀ q ∈ l, q.Type_ ≠ k) → (Provider.registerAll l p e).1.providers k = p.providers k
  | [], _, _, _ => rfl
  | pc :: l, p, e, h => by
    simp only [Provider.registerAll]
    rw [registerAll_untouched k l _ _ (fun q hq => h q (List.mem_cons_of_mem _ hq))]
    have hk : ¬ k = pc.Type_ := fun hk => h pc (List.mem_cons_self _ _) hk.symm
    simp [Provider.register, hk]

theorem registerAll_invoked :
    ∀ (l : List (ProviderConfig W I)) (p : Provider I) (e : Env W),
      (Provider.registerAll l p e).2.invoked = e.invoked ++ l.map (fun pc => pc.ID)
  | [], _, _ => by simp [Provider.registerAll]
  | pc :: l, p, e => by
    simp only [Provider.registerAll]
    rw [registerAll_invoked l]
    simp [Provider.register]

/-- The entry of a kind after a registration is the instance its last config
in the list produced, in the world the configs before it left. -/
theorem registerAll_last (pre post : List (ProviderConfig W I)) (pc : ProviderConfig W I)
    (p : Provider I) (e : Env W) (hpost : ∀ q ∈ post, q.Type_ ≠ pc.Type_) :
    (Provider.registerAll (pre ++ pc :: post) p e).1.providers pc.Type_
      = some (pc.Impl (Provider.registerAll pre p e).2.world).1 := by
  rw [registerAll_append]
  simp only [Provider.registerAll]
  rw [registerAll_untouched pc.Type_ post _ _ hpost]
  simp [Provider.register]

theorem exists_last_of_kind (k : ProviderType) :
    ∀ (l : List (ProviderConfig W I)), (∃ pc ∈ l, pc.Type_ = k) →
      ∃ pre pc post, l = pre ++ pc :: post ∧ pc.Type_ = k ∧ ∀ q ∈ post, q.Type_ ≠ k
  | [], h => by obtain ⟨_, hmem, _⟩ := h; cases hmem
  | pc0 :: rest, h => by
    by_cases hrest : ∃ pc ∈ rest, pc.Type_ = k
    · obtain ⟨pre, pc, post, hl, hk, hpost⟩ := exists_last_of_kind k rest hrest
      exact ⟨pc0 :: pre, pc, post, by rw [hl]; rfl, hk, hpost⟩
    · obtain ⟨pc, hmem, hk⟩ := h
      rcases List.mem_cons.1 hmem with rfl | hmem'
      · exact ⟨[], pc, rest, rfl, hk, fun q hq hqk => hrest ⟨q, hq, hqk⟩⟩
      · exact absurd ⟨pc, hmem', hk⟩ hrest

end provider

/-! ## Configuration: `validateProviders`, `NewConfig`, `UpdateConfig` -/

namespace observer

variable {W I : Type}

theorem validateProviders_none_iff : ∀ (opts : List (provider.ProviderConfig W I)),
    validateProviders opts = none ↔ ∀ pc ∈ opts, recognized pc.Type_
  | [] => by simp [validateProviders]
  | pc :: rest => by
    by_cases h : pc.Type_ ≠ TypeLogger ∧ pc.Type_ ≠ TypeErrorReporter ∧ pc.Type_ ≠ TypeMetrics
    · have hn : ¬ recognized pc.Type_ := by
        unfold recognized; rintro (h1 | h1 | h1)
        · exact h.1 h1
        · exact h.2.1 h1
        · exact h.2.2 h1
      have hv : validateProviders (pc :: rest) = some pc := by
        simp only [validateProviders]; exact if_pos h
      rw [hv]
      constructor
      · intro hc; cases hc
      · intro hc; exact absurd (hc pc (List.mem_cons_self _ _)) hn
    · have hr : recognized pc.Type_ := by
        unfold recognized
        by_contra hc
        exact h ⟨fun h1 => hc (Or.inl h1), fun h1 => hc (Or.inr (Or.inl h1)),
          fun h1 => hc (Or.inr (Or.inr h1))⟩
      have hv : validateProviders (pc :: rest) = validateProviders rest := by
        simp only [validateProviders]; exact if_neg h
      rw [hv, validateProviders_none_iff rest]
      simp only [List.mem_cons, forall_eq_or_imp, hr, true_and]

theorem validateProviders_first : ∀ (opts : List (provider.ProviderConfig W I)),
    (∃ pc ∈ opts, ¬ recognized pc.Type_) →
      ∃ pre pc post, opts = pre ++ pc :: post ∧ (∀ q ∈ pre, recognized q.Type_)
        ∧ ¬ recognized pc.Type_ ∧ validateProviders opts = some pc
  | [], h => by obtain ⟨_, hmem, _⟩ := h; cases hmem
  | pc0 :: rest, h => by
    by_cases hr : recognized pc0.Type_
    · have hrest : ∃ pc ∈ rest, ¬ recognized pc.Type_ := by
        obtain ⟨pc, hmem, hn⟩ := h
        rcases List.mem_cons.1 hmem with rfl | hmem'
        · exact absurd hr hn
        · exact ⟨pc, hmem', hn⟩
      obtain ⟨pre, pc, post, hl, hpre, hn, hv⟩ := validateProviders_first rest hrest
      refine ⟨pc0 :: pre, pc, post, by rw [hl]; rfl, ?_, hn, ?_⟩
      · intro q hq
        rcases List.mem_cons.1 hq with rfl | hq'
        · exact hr
        · exact hpre q hq'
      · have hc : ¬ (pc0.Type_ ≠ TypeLogger ∧ pc0.Type_ ≠ TypeErrorReporter
            ∧ pc0.Type_ ≠ TypeMetrics) := by
          rintro ⟨h1, h2, h3⟩
          rcases hr with h | h | h
          · exact h1 h
          · exact h2 h
          · exact h3 h
        simp only [validateProviders]
        rw [if_neg hc]
        exact hv
    · refine ⟨[], pc0, rest, rfl, by simp, hr, ?_⟩
      have hc : pc0.Type_ ≠ TypeLogger ∧ pc0.Type_ ≠ TypeErrorReporter
          ∧ pc0.Type_ ≠ TypeMetrics :=
        ⟨fun h1 => hr (Or.inl h1), fun h1 => hr (Or.inr (Or.inl h1)),
          fun h1 => hr (Or.inr (Or.inr h1))⟩
      simp only [validateProviders]
      exact if_pos hc

end observer

/-! ## The claims about configuration -/

namespace observer

/-- C2: `validateProviders` returns nil exactly when every kind of the list is
one of the three. When a list holds a config of another kind, the list splits
at the first such config, and `NewConfig` and `UpdateConfig` both return a nil
registry with the error `UnsupportedProviderType` that carries the kind of
that config, in a state that is the state before the call: `observerProvider`
is the same, the registry has no new or replaced entry, and no factory has
been invoked. This holds whatever the registry package does, since neither
function reaches it. -/
theorem unsupported_kind_rejected {W : Type} (nr : provider.NilReceiver W (GoInterface W))
    (opts : List (provider.ProviderConfig W (GoInterface W))) (s : Process W) :
    (validateProviders opts = none ↔ ∀ pc ∈ opts, recognized pc.Type_)
    ∧ ((∃ pc ∈ opts, ¬ recognized pc.Type_) →
        ∃ pre pc post, opts = pre ++ pc :: post ∧ (∀ q ∈ pre, recognized q.Type_)
          ∧ ¬ recognized pc.Type_
          ∧ NewConfig opts s = ((none, some (GoError.UnsupportedProviderType pc.Type_)), s)
          ∧ UpdateConfig nr opts s
              = Except.ok ((none, some (GoError.UnsupportedProviderType pc.Type_)), s)) := by
  refine ⟨validateProviders_none_iff opts, ?_⟩
  intro h
  obtain ⟨pre, pc, post, hl, hpre, hn, hv⟩ := validateProviders_first opts h
  refine ⟨pre, pc, post, hl, hpre, hn, ?_, ?_⟩
  · simp only [NewConfig, hv]
  · simp only [UpdateConfig, hv]

/-- Witness of C2: the list (logger, kind 99, metrics) is rejected for its
kind 99, by both functions, in the state before the call. -/
theorem unsupported_kind_rejected_witness :
    (∃ pc ∈ [google.loggerConfig, google.unknownConfig, google.metricsConfig],
        ¬ recognized pc.Type_)
    ∧ (∃ pre pc post,
        [google.loggerConfig, google.unknownConfig, google.metricsConfig] = pre ++ pc :: post
          ∧ (∀ q ∈ pre, recognized q.Type_) ∧ ¬ recognized pc.Type_
          ∧ NewConfig [google.loggerConfig, google.unknownConfig, google.metricsConfig]
              google.metricsOnly
              = ((none, some (GoError.UnsupportedProviderType pc.Type_)), google.metricsOnly)
          ∧ UpdateConfig google.nilDereferences
              [google.loggerConfig, google.unknownConfig, google.metricsConfig]
              google.metricsOnly
              = Except.ok ((none, some (GoError.UnsupportedProviderType pc.Type_)),
                  google.metricsOnly))
    ∧ (NewConfig [google.loggerConfig, google.unknownConfig, google.metricsConfig]
        google.metricsOnly).1.2 = some (GoError.UnsupportedProviderType 99) :=
  ⟨⟨google.unknownConfig, by simp, by decide⟩,
   (unsupported_kind_rejected google.nilDereferences _ google.metricsOnly).2
     ⟨google.unknownConfig, by simp, by decide⟩,
   by decide⟩

/-- C3 on the registry as the specification describes it: for a list of configs
whose kinds are all recognized (the empty list and repeated kinds included),
`NewConfig` returns a registry and a nil error and publishes that registry as
`Instance()`; every factory of the list has been invoked once, in order; and
for every kind of the list `Find` on the registry returns found = true with
the instance that the factory of the last config of that kind returned. -/
theorem NewConfig_recognized {W : Type} (nr : provider.NilReceiver W (GoInterface W))
    (opts : List (provider.ProviderConfig W (GoInterface W))) (s : Process W)
    (h : ∀ pc ∈ opts, recognized pc.Type_) :
    ∃ r env', NewConfig opts s = ((some r, none), { observerProvider := some r, env := env' })
      ∧ Instance (NewConfig opts s).2 = some r
      ∧ env'.invoked = s.env.invoked ++ opts.map (fun pc => pc.ID)
      ∧ ∀ pc ∈ opts, ∃ pre last post, opts = pre ++ last :: post ∧ last.Type_ = pc.Type_
          ∧ (∀ q ∈ post, q.Type_ ≠ pc.Type_)
          ∧ provider.Provider.Find nr (some r) pc.Type_ = Except.ok (some (last.Impl
              (provider.Provider.registerAll pre { providers := fun _ => none }
                s.env).2.world).1, true) := by
  have hv := (validateProviders_none_iff opts).2 h
  refine ⟨(provider.Provider.registerAll opts { providers := fun _ => none } s.env).1,
    (provider.Provider.registerAll opts { providers := fun _ => none } s.env).2, ?_, ?_, ?_, ?_⟩
  · simp only [NewConfig, hv, provider.New]
  · simp only [NewConfig, hv, provider.New, Instance]
  · exact provider.registerAll_invoked opts _ _
  · intro pc hpc
    obtain ⟨pre, last, post, hl, hk, hpost⟩ :=
      provider.exists_last_of_kind pc.Type_ opts ⟨pc, hpc, rfl⟩
    refine ⟨pre, last, post, hl, hk, hpost, ?_⟩
    have hlast := provider.registerAll_last pre post last { providers := fun _ => none } s.env
      (by rw [hk]; exact hpost)
    rw [← hl, hk] at hlast
    simp only [provider.Provider.Find, hlast]

/-- Witness of C3: the list (logger, error reporter, logger) at the start of a
process. -/
theorem NewConfig_recognized_witness :
    (∀ pc ∈ [google.loggerConfig, google.errorConfig, google.loggerConfig],
        recognized pc.Type_)
    ∧ ∃ r env', NewConfig [google.loggerConfig, google.errorConfig, google.loggerConfig]
          google.start = ((some r, none), { observerProvider := some r, env := env' })
      ∧ Instance (NewConfig [google.loggerConfig, google.errorConfig, google.loggerConfig]
          google.start).2 = some r
      ∧ env'.invoked = google.start.env.invoked
          ++ [google.loggerConfig, google.errorConfig, google.loggerConfig].map (fun pc => pc.ID)
      ∧ ∀ pc ∈ [google.loggerConfig, google.errorConfig, google.loggerConfig],
          ∃ pre last post,
            [google.loggerConfig, google.errorConfig, google.loggerConfig] = pre ++ last :: post
            ∧ last.Type_ = pc.Type_ ∧ (∀ q ∈ post, q.Type_ ≠ pc.Type_)
            ∧ provider.Provider.Find google.nilDereferences (some r) pc.Type_ = Except.ok (some (last.Impl
                (provider.Provider.registerAll pre { providers := fun _ => none }
                  google.start.env).2.world).1, true) :=
  ⟨by intro pc hpc; simp at hpc; rcases hpc with rfl | rfl | rfl <;> decide,
   NewConfig_recognized google.nilDereferences _ google.start
     (by intro pc hpc; simp at hpc; rcases hpc with rfl | rfl | rfl <;> decide)⟩

/-- C8 on the registry as the specification describes it: in a process with a
registry, for a list of configs whose kinds are all recognized, `UpdateConfig`
returns the process-wide registry and a nil error; `Find` of a kind that does
not occur in the list returns what it returned before the call; and `Find` of
a kind of the list returns found = true with the instance that the factory of
the last config of that kind returned. -/
theorem UpdateConfig_merges {W : Type} (nr : provider.NilReceiver W (GoInterface W))
    (opts : List (provider.ProviderConfig W (GoInterface W))) (s : Process W)
    (r0 : provider.Provider (GoInterface W)) (hs : Instance s = some r0)
    (h : ∀ pc ∈ opts, recognized pc.Type_) :
    ∃ r env', UpdateConfig nr opts s
        = Except.ok ((some r, none), { observerProvider := some r, env := env' })
      ∧ (∀ j, (∀ q ∈ opts, q.Type_ ≠ j) →
          provider.Provider.Find nr (some r) j = provider.Provider.Find nr (some r0) j)
      ∧ ∀ pc ∈ opts, ∃ pre last post, opts = pre ++ last :: post ∧ last.Type_ = pc.Type_
          ∧ (∀ q ∈ post, q.Type_ ≠ pc.Type_)
          ∧ provider.Provider.Find nr (some r) pc.Type_ = Except.ok (some (last.Impl
              (provider.Provider.registerAll pre r0 s.env).2.world).1, true) := by
  have hv := (validateProviders_none_iff opts).2 h
  refine ⟨(provider.Provider.registerAll opts r0 s.env).1,
    (provider.Provider.registerAll opts r0 s.env).2, ?_, ?_, ?_⟩
  · simp only [UpdateConfig, hv, hs, provider.Provider.RegisterProviders]
  · intro j hj
    simp only [provider.Provider.Find, provider.registerAll_untouched j opts r0 s.env hj]
  · intro pc hpc
    obtain ⟨pre, last, post, hl, hk, hpost⟩ :=
      provider.exists_last_of_kind pc.Type_ opts ⟨pc, hpc, rfl⟩
    refine ⟨pre, last, post, hl, hk, hpost, ?_⟩
    have hlast := provider.registerAll_last pre post last r0 s.env (by rw [hk]; exact hpost)
    rw [← hl, hk] at hlast
    simp only [provider.Provider.Find, hlast]

/-- Witness of C8: the logger is replaced in the process that holds only a
metrics provider. -/
theorem UpdateConfig_merges_witness :
    Instance google.metricsOnly = some google.metricsOnlyRegistry
    ∧ (∀ pc ∈ [google.loggerConfig], recognized pc.Type_)
    ∧ ∃ r env', UpdateConfig google.nilDereferences [google.loggerConfig] google.metricsOnly
        = Except.ok ((some r, none), { observerProvider := some r, env := env' })
      ∧ (∀ j, (∀ q ∈ [google.loggerConfig], q.Type_ ≠ j) →
          provider.Provider.Find google.nilDereferences (some r) j
            = provider.Provider.Find google.nilDereferences (some google.metricsOnlyRegistry) j)
      ∧ ∀ pc ∈ [google.loggerConfig], ∃ pre last post,
          [google.loggerConfig] = pre ++ last :: post ∧ last.Type_ = pc.Type_
          ∧ (∀ q ∈ post, q.Type_ ≠ pc.Type_)
          ∧ provider.Provider.Find google.nilDereferences (some r) pc.Type_ = Except.ok (some (last.Impl
              (provider.Provider.registerAll pre google.metricsOnlyRegistry
                google.metricsOnly.env).2.world).1, true) :=
  ⟨rfl, by intro pc hpc; simp at hpc; subst hpc; decide,
   UpdateConfig_merges google.nilDereferences _ google.metricsOnly
     google.metricsOnlyRegistry rfl
     (by intro pc hpc; simp at hpc; subst hpc; decide)⟩

end observer

/-! ## The claims about the facade -/

namespace observer

theorem Find_unregistered {W I : Type} (nr : provider.NilReceiver W I) (r : provider.Provider I)
    (k : provider.ProviderType) (h : r.providers k = none) :
    provider.Provider.Find nr (some r) k = Except.ok (none, false) := by
  simp only [provider.Provider.Find, h]

/-- C5 on the registry as the specification describes it: in a process with a
registry, `Find` of a kind without an entry returns found = false, and a kind
that no list given to `New` or `RegisterProviders` names has no entry. Without
a logger entry `Log`, `LogWithLevel`, `EnableLogging` and `DisableLogging`
return in the state they were called in; without a metrics entry so does
`Meter`; without an error reporter entry `ReportError` returns nil in that
state, for every error and for nil. The state holds the registry and the
world of every provider, so nothing of a provider has run. -/
theorem unregistered_kind_noop {W : Type} (nr : provider.NilReceiver W (GoInterface W))
    (s : Process W) (r : provider.Provider (GoInterface W)) (hs : Instance s = some r) :
    (∀ k, r.providers k = none →
        provider.Provider.Find nr (Instance s) k = Except.ok (none, false))
    ∧ (∀ (opts : List (provider.ProviderConfig W (GoInterface W))) (e : provider.Env W) k,
        (∀ q ∈ opts, q.Type_ ≠ k) →
          provider.Provider.Find nr (provider.New opts e).1.1 k = Except.ok (none, false))
    ∧ (∀ (opts : List (provider.ProviderConfig W (GoInterface W))) (e : provider.Env W) k,
        (∀ q ∈ opts, q.Type_ ≠ k) → r.providers k = none →
          (provider.Provider.registerAll opts r e).1.providers k = none)
    ∧ (r.providers TypeLogger = none → ∀ lvl msg kv,
        Log nr msg kv s = Except.ok s ∧ LogWithLevel nr lvl msg kv s = Except.ok s
        ∧ EnableLogging nr s = Except.ok s ∧ DisableLogging nr s = Except.ok s)
    ∧ (r.providers TypeMetrics = none → ∀ ctx metric vals,
        Meter nr ctx metric vals s = Except.ok s)
    ∧ (r.providers TypeErrorReporter = none → ∀ e, ReportError nr e s = Except.ok (none, s)) := by
  refine ⟨?_, ?_, ?_, ?_, ?_, ?_⟩
  · intro k hk
    rw [hs]
    exact Find_unregistered nr r k hk
  · intro opts e k hk
    simp only [provider.New]
    apply Find_unregistered
    rw [provider.registerAll_untouched k opts _ e hk]
  · intro opts e k hk hr
    rw [provider.registerAll_untouched k opts r e hk]
    exact hr
  · intro h lvl msg kv
    have hf := Find_unregistered nr r TypeLogger h
    refine ⟨?_, ?_, ?_, ?_⟩
    · simp only [Log, hs, hf]; rfl
    · simp only [LogWithLevel, hs, hf]; rfl
    · simp only [EnableLogging, hs, hf]; rfl
    · simp only [DisableLogging, hs, hf]; rfl
  · intro h ctx metric vals
    have hf := Find_unregistered nr r TypeMetrics h
    simp only [Meter, hs, hf]; rfl
  · intro h e
    have hf := Find_unregistered nr r TypeErrorReporter h
    simp only [ReportError, hs, hf]; rfl

/-- Witness of C5, the scenario of the specification: with only a metrics
provider configured, `Log("hello")` is a silent no-op and
`Meter(ctx, "requests", "route", "/x")` delivers one metric event with the
label route:/x. -/
theorem unregistered_kind_noop_witness :
    Instance google.metricsOnly = some google.metricsOnlyRegistry
    ∧ google.metricsOnlyRegistry.providers TypeLogger = none
    ∧ Log google.nilDereferences "hello" [] google.metricsOnly = Except.ok google.metricsOnly
    ∧ (Meter google.nilDereferences Context.TODO "requests" ["route", "/x"]
        google.metricsOnly).map (fun s => s.env.world) = Except.ok (some
          { logger := [],
            metrics := [{ Payload := "requests", Severity := google.NativeSeverity.Notice,
                          Labels := some [("route", "/x")] }],
            errorClient := [], loggingDisabled := false }) :=
  ⟨rfl, rfl,
   ((unregistered_kind_noop google.nilDereferences google.metricsOnly
      google.metricsOnlyRegistry rfl).2.2.2.1 rfl LevelInfo "hello" []).1,
   by decide⟩

/-- C6: when `Find` reports an instance under `TypeErrorReporter` and the
instance implements `ErrorReportingProvider`, the facade `ReportError(e)`
returns exactly what the method `ReportError(e)` of the instance returns, and
the world is what the method left. For the Stackdriver provider the result is
`e` itself for every `e`; `ReportError(nil)` returns nil and leaves the error
client as it is; `ReportError(e)` for a non-nil `e` hands exactly one report,
carrying `e`, to the error client. -/
theorem ReportError_passthrough {W : Type} (nr : provider.NilReceiver W (GoInterface W))
    (s : Process W) (i : GoInterface W)
    (ep : ErrorReportingProvider W) (e : Option GoError)
    (hfind : provider.Provider.Find nr (Instance s) TypeErrorReporter
      = Except.ok (some i, true))
    (hep : i.asErrorReportingProvider = some ep)
    (np : google.stackdriverImpl) (err : GoError) :
    ReportError nr e s = (ep.ReportError e s.env.world).map (fun r => (r.1, s.withWorld r.2))
    ∧ (np.ReportError e).1 = e
    ∧ np.ReportError none = (none, np)
    ∧ np.ReportError (some err)
        = (some err, { np with errorClient := np.errorClient ++ [err] }) := by
  refine ⟨?_, ?_, rfl, rfl⟩
  · simp only [ReportError, hfind, assertErrorReportingProvider, hep]
    rfl
  · cases e <;> rfl

/-- Witness of C6, the scenario of `TestErrorReportingImpl`: with the
Stackdriver provider registered as the error reporter, the facade returns the
error it was given and the error client has received that one error. -/
theorem ReportError_passthrough_witness :
    provider.Provider.Find google.nilDereferences (Instance google.errorOnly) TypeErrorReporter
        = Except.ok (some google.stackdriverInterface, true)
    ∧ google.stackdriverInterface.asErrorReportingProvider = some google.stackdriverReporter
    ∧ ReportError google.nilDereferences (some (GoError.other "TestLoggingImpl"))
        google.errorOnly
        = (google.stackdriverReporter.ReportError (some (GoError.other "TestLoggingImpl"))
            google.errorOnly.env.world).map (fun r => (r.1, google.errorOnly.withWorld r.2))
    ∧ (ReportError google.nilDereferences (some (GoError.other "TestLoggingImpl"))
        google.errorOnly).map (fun r => (r.1, r.2.env.world))
        = Except.ok (some (GoError.other "TestLoggingImpl"), some
            { logger := [], metrics := [], errorClient := [GoError.other "TestLoggingImpl"],
              loggingDisabled := false })
    ∧ (ReportError google.nilDereferences none google.errorOnly).map
        (fun r => (r.1, r.2.env.world))
        = Except.ok (none, some
            { logger := [], metrics := [], errorClient := [], loggingDisabled := false }) :=
  ⟨rfl, rfl,
   (ReportError_passthrough google.nilDereferences google.errorOnly google.stackdriverInterface
      google.stackdriverReporter (some (GoError.other "TestLoggingImpl")) rfl rfl
      { logger := [], metrics := [], errorClient := [], loggingDisabled := false }
      (GoError.other "TestLoggingImpl")).1,
   by decide, by decide⟩

/-- In a process without a registry every facade function hands the nil
pointer to `Find` with no check of its own: it fails when `Find` fails on the
nil receiver, and returns in the state it was called in (`ReportError` with a
nil error) when `Find` reports not found. Which of the two happens is decided
by the registry package alone. -/
theorem facade_without_registry {W : Type} (nr : provider.NilReceiver W (GoInterface W))
    (w : W) (lvl : Severity) (msg : String) (kv : List String) (ctx : Context)
    (e : Option GoError) :
    Instance (Process.initial w) = none
    ∧ (∀ p, (∀ k, nr.Find k = Except.error p) →
        Log nr msg kv (Process.initial w) = Except.error p
        ∧ LogWithLevel nr lvl msg kv (Process.initial w) = Except.error p
        ∧ EnableLogging nr (Process.initial w) = Except.error p
        ∧ DisableLogging nr (Process.initial w) = Except.error p
        ∧ Meter nr ctx msg kv (Process.initial w) = Except.error p
        ∧ ReportError nr e (Process.initial w) = Except.error p)
    ∧ ((∀ k, nr.Find k = Except.ok (none, false)) →
        Log nr msg kv (Process.initial w) = Except.ok (Process.initial w)
        ∧ LogWithLevel nr lvl msg kv (Process.initial w) = Except.ok (Process.initial w)
        ∧ EnableLogging nr (Process.initial w) = Except.ok (Process.initial w)
        ∧ DisableLogging nr (Process.initial w) = Except.ok (Process.initial w)
        ∧ Meter nr ctx msg kv (Process.initial w) = Except.ok (Process.initial w)
        ∧ ReportError nr e (Process.initial w) = Except.ok (none, Process.initial w)) := by
  refine ⟨rfl, ?_, ?_⟩
  · intro p h
    simp only [Log, LogWithLevel, EnableLogging, DisableLogging, Meter, ReportError, Instance,
      Process.initial, provider.Provider.Find, h, and_self]
  · intro h
    simp only [Log, LogWithLevel, EnableLogging, DisableLogging, Meter, ReportError, Instance,
      Process.initial, provider.Provider.Find, h]
    simp

end observer

/-! ## The logging flag, through the provider and through the facade -/

namespace google

theorem withWorld_self (s : observer.Process World) (w : World) (hw : s.env.world = w) :
    s.withWorld w = s := by
  cases s with
  | mk op env =>
    cases env with
    | mk world invoked =>
      simp only at hw
      subst hw
      rfl

theorem facade_Log_found (nr : provider.NilReceiver World (observer.GoInterface World))
    (s : observer.Process World) (np : stackdriverImpl) (msg : String) (kv : List String)
    (hfind : provider.Provider.Find nr (observer.Instance s) observer.TypeLogger
      = Except.ok (some stackdriverInterface, true))
    (hw : s.env.world = some np) :
    observer.Log nr msg kv s = (np.Log msg kv).map (fun a => s.withWorld (some a)) := by
  simp only [observer.Log, hfind, observer.assertLoggingProvider, stackdriverInterface,
    onSingleton, hw]
  cases np.Log msg kv <;> rfl

theorem facade_LogWithLevel_found (nr : provider.NilReceiver World (observer.GoInterface World))
    (s : observer.Process World) (np : stackdriverImpl) (lvl : observer.Severity)
    (msg : String) (kv : List String)
    (hfind : provider.Provider.Find nr (observer.Instance s) observer.TypeLogger
      = Except.ok (some stackdriverInterface, true))
    (hw : s.env.world = some np) :
    observer.LogWithLevel nr lvl msg kv s
      = (np.LogWithLevel lvl msg kv).map (fun a => s.withWorld (some a)) := by
  simp only [observer.LogWithLevel, hfind, observer.assertLoggingProvider, stackdriverInterface,
    onSingleton, hw]
  cases np.LogWithLevel lvl msg kv <;> rfl

theorem facade_EnableLogging_found (nr : provider.NilReceiver World (observer.GoInterface World))
    (s : observer.Process World) (np : stackdriverImpl)
    (hfind : provider.Provider.Find nr (observer.Instance s) observer.TypeLogger
      = Except.ok (some stackdriverInterface, true))
    (hw : s.env.world = some np) :
    observer.EnableLogging nr s = Except.ok (s.withWorld (some np.EnableLogging)) := by
  simp only [observer.EnableLogging, hfind, observer.assertLoggingProvider, stackdriverInterface,
    onSingleton, hw]
  rfl

theorem facade_DisableLogging_found (nr : provider.NilReceiver World (observer.GoInterface World))
    (s : observer.Process World) (np : stackdriverImpl)
    (hfind : provider.Provider.Find nr (observer.Instance s) observer.TypeLogger
      = Except.ok (some stackdriverInterface, true))
    (hw : s.env.world = some np) :
    observer.DisableLogging nr s = Except.ok (s.withWorld (some np.DisableLogging)) := by
  simp only [observer.DisableLogging, hfind, observer.assertLoggingProvider,
    stackdriverInterface, onSingleton, hw]
  rfl

/-- A sequence of logging calls through the facade does to the registered
Stackdriver provider what the same sequence of method calls does to it. -/
theorem facadeCalls_found (nr : provider.NilReceiver World (observer.GoInterface World)) :
    ∀ (cs : List LogCall) (s : observer.Process World) (np : stackdriverImpl),
      provider.Provider.Find nr (observer.Instance s) observer.TypeLogger
        = Except.ok (some stackdriverInterface, true) →
      s.env.world = some np →
        facadeCalls nr cs s = (runCalls cs np).map (fun a => s.withWorld (some a))
  | [], s, np, _, hw => by
    simp only [facadeCalls, runCalls]
    show Except.ok s = Except.ok (s.withWorld (some np))
    rw [withWorld_self s (some np) hw]
  | c :: cs, s, np, hfind, hw => by
    have hc : c.facade nr s = (c.run np).map (fun a => s.withWorld (some a)) := by
      cases c with
      | Log msg kv => exact facade_Log_found nr s np msg kv hfind hw
      | LogWithLevel lvl msg kv => exact facade_LogWithLevel_found nr s np lvl msg kv hfind hw
    simp only [facadeCalls, runCalls, hc]
    cases hr : c.run np with
    | error p => rfl
    | ok np' =>
      show facadeCalls nr cs (s.withWorld (some np')) = _
      rw [facadeCalls_found nr cs (s.withWorld (some np')) np' hfind rfl]
      rfl

/-- C7: the Stackdriver provider as a state machine over `loggingDisabled`,
by its methods and through the facade of observer.go. A freshly constructed
provider has logging enabled. After `DisableLogging` any sequence of `Log` and
`LogWithLevel` calls returns and leaves the provider as it is, so no entry
reaches the backend. After `EnableLogging` every call of a following sequence
returns and appends exactly its one entry to the logger, also when the
sequence follows a disabled phase. `EnableLogging` and `DisableLogging` are
idempotent. With the provider registered as the logger, the facade functions
`EnableLogging`, `DisableLogging`, `Log` and `LogWithLevel` do to the provider
what its methods do, and the same holds for sequences of facade calls. -/
theorem logging_flag_state_machine
    (nr : provider.NilReceiver World (observer.GoInterface World))
    (s : observer.Process World) (np : stackdriverImpl) (cs cs' : List LogCall)
    (lvl : observer.Severity) (msg : String) (kv : List String)
    (hfind : provider.Provider.Find nr (observer.Instance s) observer.TypeLogger
      = Except.ok (some stackdriverInterface, true))
    (hw : s.env.world = some np) :
    NewGoogleStackdriverProvider false none = Except.ok
      { logger := [], metrics := [], errorClient := [], loggingDisabled := false }
    ∧ runCalls cs np.DisableLogging = Except.ok np.DisableLogging
    ∧ np.DisableLogging.logger = np.logger
    ∧ runCalls cs np.EnableLogging = Except.ok
        { np.EnableLogging with logger := np.logger ++ cs.map LogCall.entry }
    ∧ (runCalls cs np.DisableLogging).bind (fun a => runCalls cs' a.EnableLogging)
        = Except.ok { np.EnableLogging with logger := np.logger ++ cs'.map LogCall.entry }
    ∧ (np.logger ++ cs'.map LogCall.entry).length = np.logger.length + cs'.length
    ∧ np.EnableLogging.EnableLogging = np.EnableLogging
    ∧ np.DisableLogging.DisableLogging = np.DisableLogging
    ∧ observer.DisableLogging nr s = Except.ok (s.withWorld (some np.DisableLogging))
    ∧ observer.EnableLogging nr s = Except.ok (s.withWorld (some np.EnableLogging))
    ∧ observer.Log nr msg kv s = (np.Log msg kv).map (fun a => s.withWorld (some a))
    ∧ observer.LogWithLevel nr lvl msg kv s
        = (np.LogWithLevel lvl msg kv).map (fun a => s.withWorld (some a))
    ∧ (observer.DisableLogging nr s).bind (facadeCalls nr cs)
        = Except.ok (s.withWorld (some np.DisableLogging))
    ∧ (((observer.DisableLogging nr s).bind (facadeCalls nr cs)).bind
          (observer.EnableLogging nr)).bind (facadeCalls nr cs')
        = Except.ok (s.withWorld (some
            { np.EnableLogging with logger := np.logger ++ cs'.map LogCall.entry })) := by
  have hdis := facade_DisableLogging_found nr s np hfind hw
  have hcalls : (observer.DisableLogging nr s).bind (facadeCalls nr cs)
      = Except.ok (s.withWorld (some np.DisableLogging)) := by
    rw [hdis]
    show facadeCalls nr cs (s.withWorld (some np.DisableLogging)) = _
    rw [facadeCalls_found nr cs (s.withWorld (some np.DisableLogging)) np.DisableLogging
      hfind rfl, runCalls_disabled cs _ rfl]
    rfl
  refine ⟨rfl, runCalls_disabled cs _ rfl, rfl, runCalls_enabled cs _ rfl, ?_, by simp, rfl, rfl,
    hdis, facade_EnableLogging_found nr s np hfind hw, facade_Log_found nr s np msg kv hfind hw,
    facade_LogWithLevel_found nr s np lvl msg kv hfind hw, hcalls, ?_⟩
  · rw [runCalls_disabled cs _ rfl]
    exact runCalls_enabled cs' _ rfl
  · rw [hcalls]
    show (observer.EnableLogging nr (s.withWorld (some np.DisableLogging))).bind
      (facadeCalls nr cs') = _
    rw [facade_EnableLogging_found nr (s.withWorld (some np.DisableLogging)) np.DisableLogging
      hfind rfl]
    show facadeCalls nr cs' ((s.withWorld (some np.DisableLogging)).withWorld
      (some np.DisableLogging.EnableLogging)) = _
    rw [facadeCalls_found nr cs' ((s.withWorld (some np.DisableLogging)).withWorld
        (some np.DisableLogging.EnableLogging)) np.DisableLogging.EnableLogging hfind rfl,
      runCalls_enabled cs' _ rfl]
    rfl

/-- Witness of C7, the process of `TestLoggingImpl`: the Stackdriver provider
is registered as the logger; after the facade `DisableLogging` a facade `Log`
leaves the logger empty, and after the facade `EnableLogging` a facade `Log`
delivers its one entry. -/
theorem logging_flag_state_machine_witness :
    provider.Provider.Find nilDereferences (observer.Instance loggerOnly) observer.TypeLogger
        = Except.ok (some stackdriverInterface, true)
    ∧ loggerOnly.env.world = some
        { logger := [], metrics := [], errorClient := [], loggingDisabled := false }
    ∧ (observer.DisableLogging nilDereferences loggerOnly).bind
          (facadeCalls nilDereferences [LogCall.Log "TestLoggingImpl" []])
        = Except.ok (loggerOnly.withWorld (some
            { logger := [], metrics := [], errorClient := [], loggingDisabled := true }))
    ∧ ((((observer.DisableLogging nilDereferences loggerOnly).bind
          (facadeCalls nilDereferences [LogCall.Log "TestLoggingImpl" []])).bind
          (observer.EnableLogging nilDereferences)).bind
          (facadeCalls nilDereferences [LogCall.Log "TestLoggingImpl" ["k", "v"]])).map
          (fun s => s.env.world)
        = Except.ok (some
            { logger := [{ Payload := "TestLoggingImpl", Severity := NativeSeverity.Info,
                           Labels := some [("k", "v")] }],
              metrics := [], errorClient := [], loggingDisabled := false }) :=
  ⟨rfl, rfl,
   (logging_flag_state_machine nilDereferences loggerOnly
      { logger := [], metrics := [], errorClient := [], loggingDisabled := false }
      [LogCall.Log "TestLoggingImpl" []] [] observer.LevelInfo "" [] rfl rfl).2.2.2.2.2.2.2.2.2.2.2.2.1,
   by decide⟩

end google
